import Mathlib

/-!
# Arina: `src/firebase/firebaseConfig.js`

A shallow embedding of the Firebase bootstrap module.  The module body is

* lines 5-13: the object literal `config`;
* lines 15-18: `let app; if (!firebase.apps.length) { app = firebase.initializeApp(config); }`;
* lines 21-22: `export const firestore = firebase.firestore();`
  and `export const storage = firebase.storage();`.

The vendor SDK (`firebase/compat/app`) is an external collaborator.  Its
process-wide registry `firebase.apps` is explicit state (a list of client
instances), and its three calls are the fields of a `Vendor` value that every
definition takes as a parameter.  A JavaScript exception is an `Except` error;
an exception aborts the rest of the module body.
-/

namespace FirebaseConfig

/-! ## Data model -/

/-- A configuration record: a JavaScript object literal whose property values
are strings, as the ordered list of its `(key, value)` properties. -/
abbrev Config := List (String × String)

/-- The object literal `config` of lines 5-13. -/
def config : Config :=
  [ ("apiKey", ""),
    ("authDomain", ""),
    ("projectId", ""),
    ("storageBucket", ""),
    ("messagingSenderId", ""),
    ("appId", ""),
    ("measurementId", "") ]

/-- The two services whose handles the module exports. -/
inductive Service where
  | firestore
  | storage
  deriving DecidableEq, Repr

/-- A service handle: the service it gives access to and the client instance
it is bound to. -/
structure Handle (α : Type) where
  service : Service
  app : α
  deriving DecidableEq, Repr

/-- The vendor SDK as the module sees it, over client instances `α` and
vendor errors `ε`.  The registry `firebase.apps` is the `List α` argument.

* `initializeApp cfg apps` is `firebase.initializeApp(cfg)` evaluated when the
  registry is `apps`: the instance it returns, or the error it throws.  A
  returned instance is registered (appended to the registry) by the step that
  makes the call; a throwing call registers nothing.
* `firestore apps` and `storage apps` are `firebase.firestore()` and
  `firebase.storage()` evaluated when the registry is `apps`: the handle, or
  the error thrown.  They read the registry and do not change it. -/
structure Vendor (ε α : Type) where
  initializeApp : Config → List α → Except ε α
  firestore : List α → Except ε (Handle α)
  storage : List α → Except ε (Handle α)

/-- The vendor calls the module can make. -/
inductive Call where
  | initializeApp (cfg : Config)
  | firestore
  | storage
  deriving DecidableEq, Repr

/-- One vendor call performed by the module: which call, and the registry at
the moment the call was made. -/
structure Event (α : Type) where
  call : Call
  apps : List α
  deriving DecidableEq, Repr

/-- The result of running a piece of the module body: the registry
afterwards, the vendor calls performed (in order), and the value produced or
the error that aborted the run. -/
structure Outcome (ε α β : Type) where
  registry : List α
  calls : List (Event α)
  result : Except ε β

/-- Sequencing of statements: when the first part throws, the error aborts the
run and nothing else is executed; otherwise the second part runs on the
registry the first part left. -/
def Outcome.andThen {ε α β γ : Type} (o : Outcome ε α β)
    (k : β → List α → Outcome ε α γ) : Outcome ε α γ :=
  match o.result with
  | .error e => Outcome.mk o.registry o.calls (.error e)
  | .ok b =>
    let o2 := k b o.registry
    Outcome.mk o2.registry (o.calls ++ o2.calls) o2.result

/-- The values the module exports by name (lines 21-22). -/
structure Exports (α : Type) where
  firestore : Handle α
  storage : Handle α
  deriving DecidableEq, Repr

/-! ## The module body -/

section Body

variable {ε α : Type}

/-- Lines 15-18, ensure-initialized, with the configuration record as a
parameter.  `let app;` leaves `app` undefined (`none`); the guard
`!firebase.apps.length` holds exactly when the registry has length 0, and only
then is `firebase.initializeApp(cfg)` called and its result assigned to `app`. -/
def ensureInitialized (V : Vendor ε α) (cfg : Config) (apps : List α) :
    Outcome ε α (Option α) :=
  if apps.length = 0 then
    match V.initializeApp cfg apps with
    | .ok a => Outcome.mk (apps ++ [a]) [Event.mk (.initializeApp cfg) apps] (.ok (some a))
    | .error e => Outcome.mk apps [Event.mk (.initializeApp cfg) apps] (.error e)
  else
    Outcome.mk apps [] (.ok none)

/-- Line 21, the database-handle accessor: `firebase.firestore()`. -/
def getFirestore (V : Vendor ε α) (apps : List α) : Outcome ε α (Handle α) :=
  Outcome.mk apps [Event.mk .firestore apps] (V.firestore apps)

/-- Line 22, the storage-handle accessor: `firebase.storage()`. -/
def getStorage (V : Vendor ε α) (apps : List α) : Outcome ε α (Handle α) :=
  Outcome.mk apps [Event.mk .storage apps] (V.storage apps)

/-- The whole module body (lines 15-22) for a configuration record `cfg`:
ensure-initialized, then the two accessors, in source order. -/
def moduleBody (V : Vendor ε α) (cfg : Config) (apps : List α) :
    Outcome ε α (Exports α) :=
  (ensureInitialized V cfg apps).andThen fun _ apps1 =>
    (getFirestore V apps1).andThen fun f apps2 =>
      (getStorage V apps2).andThen fun s apps3 =>
        Outcome.mk apps3 [] (.ok (Exports.mk f s))

/-- A module load: the module body run with the module's own `config`. -/
def moduleLoad (V : Vendor ε α) (apps : List α) : Outcome ε α (Exports α) :=
  moduleBody V config apps

/-- Running the ensure-initialized step `n` times in sequence. -/
def loads (V : Vendor ε α) (cfg : Config) : Nat → List α → Outcome ε α Unit
  | 0, apps => Outcome.mk apps [] (.ok ())
  | n + 1, apps => (ensureInitialized V cfg apps).andThen fun _ apps1 => loads V cfg n apps1

/-- Whether an event is a construction call (`firebase.initializeApp`). -/
def Event.isConstruction (ev : Event α) : Bool :=
  match ev.call with
  | .initializeApp _ => true
  | _ => false

/-- The number of construction calls among the calls performed. -/
def constructions (calls : List (Event α)) : Nat :=
  calls.countP Event.isConstruction

/-- The error, if any, that the vendor throws for a call made at a registry. -/
def Vendor.faultOf (V : Vendor ε α) (ev : Event α) : Option ε :=
  match ev.call with
  | .initializeApp cfg =>
    match V.initializeApp cfg ev.apps with
    | .error e => some e
    | .ok _ => none
  | .firestore =>
    match V.firestore ev.apps with
    | .error e => some e
    | .ok _ => none
  | .storage =>
    match V.storage ev.apps with
    | .error e => some e
    | .ok _ => none

/-- The error of the first failing call among the calls performed. -/
def firstFault (V : Vendor ε α) (calls : List (Event α)) : Option ε :=
  calls.findSome? V.faultOf

/-- The operations of the module, as steps on the registry. -/
inductive Op where
  | ensureInitialized
  | getFirestore
  | getStorage
  deriving DecidableEq, Repr

/-- The registry after one operation. -/
def step (V : Vendor ε α) (cfg : Config) (apps : List α) : Op → List α
  | .ensureInitialized => (ensureInitialized V cfg apps).registry
  | .getFirestore => (getFirestore V apps).registry
  | .getStorage => (getStorage V apps).registry

/-- The registry after a finite sequence of operations. -/
def run (V : Vendor ε α) (cfg : Config) (apps : List α) (ops : List Op) : List α :=
  ops.foldl (step V cfg) apps

end Body

/-! ## The SDK's instance resolution, and a failing vendor -/

/-- A client instance of the concrete vendors: its name and the options it was
built from. -/
structure App where
  name : String
  options : Config
  deriving DecidableEq, Repr

/-- Whether an instance is the default instance: the one registered under the
name `[DEFAULT]`, which is the name `firebase.initializeApp(cfg)` gives when,
as on line 17, no name is passed. -/
def App.isDefault (a : App) : Bool :=
  a.name == "[DEFAULT]"

/-- The three SDK calls as the module uses them.  Construction without a name
yields an instance named `[DEFAULT]` holding the given options.  An accessor
called without an argument resolves the default instance, wherever it stands
in the registry, and returns a handle bound to it; when no instance is
registered under that name it throws `app-compat/no-app`, whatever else the
registry holds.  The module calls construction only on the empty registry
(line 16), where no instance of that name exists yet. -/
def sdk : Vendor String App where
  initializeApp cfg _ := .ok (App.mk "[DEFAULT]" cfg)
  firestore apps :=
    match apps.find? App.isDefault with
    | none => .error "app-compat/no-app"
    | some a => .ok (Handle.mk .firestore a)
  storage apps :=
    match apps.find? App.isDefault with
    | none => .error "app-compat/no-app"
    | some a => .ok (Handle.mk .storage a)

/-- The instance that `sdk` constructs from the module's `config`. -/
def defaultApp : App := App.mk "[DEFAULT]" config

/-- A second instance, registered under another name by other code of the
process. -/
def secondaryApp : App := App.mk "secondary" config

/-- A vendor whose construction call always throws. -/
def failingSdk : Vendor String App where
  initializeApp _ _ := .error "app/invalid-options"
  firestore := sdk.firestore
  storage := sdk.storage

/-! ## Basic facts about the steps -/

section Lemmas

variable {ε α : Type}

theorem ensureInitialized_nil_ok (V : Vendor ε α) (cfg : Config) (a : α)
    (h : V.initializeApp cfg [] = .ok a) :
    ensureInitialized V cfg [] =
      Outcome.mk [a] [Event.mk (.initializeApp cfg) []] (.ok (some a)) := by
  simp [ensureInitialized, h]

theorem ensureInitialized_nil_error (V : Vendor ε α) (cfg : Config) (e : ε)
    (h : V.initializeApp cfg [] = .error e) :
    ensureInitialized V cfg [] =
      Outcome.mk [] [Event.mk (.initializeApp cfg) []] (.error e) := by
  simp [ensureInitialized, h]

theorem ensureInitialized_cons (V : Vendor ε α) (cfg : Config) (a : α) (as : List α) :
    ensureInitialized V cfg (a :: as) = Outcome.mk (a :: as) [] (.ok none) := by
  simp [ensureInitialized]

theorem ensureInitialized_of_ne_nil (V : Vendor ε α) (cfg : Config) (apps : List α)
    (h : apps ≠ []) :
    ensureInitialized V cfg apps = Outcome.mk apps [] (.ok none) := by
  cases apps with
  | nil => exact absurd rfl h
  | cons a as => exact ensureInitialized_cons V cfg a as

theorem ensureInitialized_nil_calls (V : Vendor ε α) (cfg : Config) :
    (ensureInitialized V cfg []).calls = [Event.mk (.initializeApp cfg) []] := by
  cases h : V.initializeApp cfg [] with
  | ok a => rw [ensureInitialized_nil_ok V cfg a h]
  | error e => rw [ensureInitialized_nil_error V cfg e h]

theorem loads_cons (V : Vendor ε α) (cfg : Config) (n : Nat) (a : α) (as : List α) :
    loads V cfg n (a :: as) = Outcome.mk (a :: as) [] (.ok ()) := by
  induction n with
  | zero => rfl
  | succ n ih => simp [loads, ensureInitialized_cons, Outcome.andThen, ih]

theorem loads_nil_ok (V : Vendor ε α) (cfg : Config) (a : α)
    (h : V.initializeApp cfg [] = .ok a) (n : Nat) :
    loads V cfg (n + 1) [] =
      Outcome.mk [a] [Event.mk (.initializeApp cfg) []] (.ok ()) := by
  simp [loads, ensureInitialized_nil_ok V cfg a h, Outcome.andThen, loads_cons]

theorem run_cons (V : Vendor ε α) (cfg : Config) (a : α) (ops : List Op) :
    run V cfg [a] ops = [a] := by
  induction ops with
  | nil => rfl
  | cons op ops ih =>
    have hstep : step V cfg [a] op = [a] := by
      cases op <;> simp [step, ensureInitialized_cons, getFirestore, getStorage]
    simpa [run, hstep] using ih

theorem ensureInitialized_nil_registry_length (V : Vendor ε α) (cfg : Config) :
    (ensureInitialized V cfg []).registry.length ≤ 1 := by
  cases h : V.initializeApp cfg [] with
  | ok a => simp [ensureInitialized_nil_ok V cfg a h]
  | error e => simp [ensureInitialized_nil_error V cfg e h]

theorem run_nil_length (V : Vendor ε α) (cfg : Config) (ops : List Op) :
    (run V cfg [] ops).length ≤ 1 := by
  induction ops with
  | nil => simp [run]
  | cons op ops ih =>
    cases op with
    | ensureInitialized =>
      cases h : V.initializeApp cfg [] with
      | ok a =>
        have hstep : step V cfg [] .ensureInitialized = [a] := by
          simp [step, ensureInitialized_nil_ok V cfg a h]
        have : run V cfg [] (.ensureInitialized :: ops) = run V cfg [a] ops := by
          simp [run, hstep]
        rw [this, run_cons]
        simp
      | error e =>
        have hstep : step V cfg [] .ensureInitialized = [] := by
          simp [step, ensureInitialized_nil_error V cfg e h]
        have : run V cfg [] (.ensureInitialized :: ops) = run V cfg [] ops := by
          simp [run, hstep]
        rw [this]
        exact ih
    | getFirestore =>
      have : run V cfg [] (.getFirestore :: ops) = run V cfg [] ops := by
        simp [run, step, getFirestore]
      rw [this]
      exact ih
    | getStorage =>
      have : run V cfg [] (.getStorage :: ops) = run V cfg [] ops := by
        simp [run, step, getStorage]
      rw [this]
      exact ih

theorem ensureInitialized_cases (V : Vendor ε α) (cfg : Config) (apps : List α) :
    (∃ a, apps = [] ∧ V.initializeApp cfg [] = .ok a ∧
      ensureInitialized V cfg apps =
        Outcome.mk [a] [Event.mk (.initializeApp cfg) []] (.ok (some a))) ∨
    (∃ e, apps = [] ∧ V.initializeApp cfg [] = .error e ∧
      ensureInitialized V cfg apps =
        Outcome.mk [] [Event.mk (.initializeApp cfg) []] (.error e)) ∨
    (apps ≠ [] ∧ ensureInitialized V cfg apps = Outcome.mk apps [] (.ok none)) := by
  cases apps with
  | cons b bs => exact Or.inr (Or.inr ⟨by simp, ensureInitialized_cons V cfg b bs⟩)
  | nil =>
    cases h : V.initializeApp cfg [] with
    | ok a => exact Or.inl ⟨a, rfl, rfl, ensureInitialized_nil_ok V cfg a h⟩
    | error e => exact Or.inr (Or.inl ⟨e, rfl, rfl, ensureInitialized_nil_error V cfg e h⟩)

theorem moduleBody_ensure_error (V : Vendor ε α) (cfg : Config) (apps : List α) (e : ε)
    (h : (ensureInitialized V cfg apps).result = .error e) :
    moduleBody V cfg apps =
      Outcome.mk (ensureInitialized V cfg apps).registry
        (ensureInitialized V cfg apps).calls (.error e) := by
  simp [moduleBody, Outcome.andThen, h]

theorem moduleBody_firestore_error (V : Vendor ε α) (cfg : Config) (apps : List α)
    (x : Option α) (e : ε)
    (h : (ensureInitialized V cfg apps).result = .ok x)
    (hf : V.firestore (ensureInitialized V cfg apps).registry = .error e) :
    moduleBody V cfg apps =
      Outcome.mk (ensureInitialized V cfg apps).registry
        ((ensureInitialized V cfg apps).calls ++
          [Event.mk .firestore (ensureInitialized V cfg apps).registry])
        (.error e) := by
  simp [moduleBody, Outcome.andThen, h, getFirestore, hf]

theorem moduleBody_storage_error (V : Vendor ε α) (cfg : Config) (apps : List α)
    (x : Option α) (f : Handle α) (e : ε)
    (h : (ensureInitialized V cfg apps).result = .ok x)
    (hf : V.firestore (ensureInitialized V cfg apps).registry = .ok f)
    (hs : V.storage (ensureInitialized V cfg apps).registry = .error e) :
    moduleBody V cfg apps =
      Outcome.mk (ensureInitialized V cfg apps).registry
        ((ensureInitialized V cfg apps).calls ++
          [Event.mk .firestore (ensureInitialized V cfg apps).registry,
            Event.mk .storage (ensureInitialized V cfg apps).registry])
        (.error e) := by
  simp [moduleBody, Outcome.andThen, h, getFirestore, hf, getStorage, hs]

theorem moduleBody_ok (V : Vendor ε α) (cfg : Config) (apps : List α)
    (x : Option α) (f s : Handle α)
    (h : (ensureInitialized V cfg apps).result = .ok x)
    (hf : V.firestore (ensureInitialized V cfg apps).registry = .ok f)
    (hs : V.storage (ensureInitialized V cfg apps).registry = .ok s) :
    moduleBody V cfg apps =
      Outcome.mk (ensureInitialized V cfg apps).registry
        ((ensureInitialized V cfg apps).calls ++
          [Event.mk .firestore (ensureInitialized V cfg apps).registry,
            Event.mk .storage (ensureInitialized V cfg apps).registry])
        (.ok (Exports.mk f s)) := by
  simp [moduleBody, Outcome.andThen, h, getFirestore, hf, getStorage, hs]

theorem ensureInitialized_ok_registry_ne_nil (V : Vendor ε α) (cfg : Config)
    (apps : List α) (x : Option α) (h : (ensureInitialized V cfg apps).result = .ok x) :
    (ensureInitialized V cfg apps).registry ≠ [] := by
  rcases ensureInitialized_cases V cfg apps with
    ⟨a, _, _, hE⟩ | ⟨e, _, _, hE⟩ | ⟨hne, hE⟩
  · simp [hE]
  · simp [hE] at h
  · simpa [hE] using hne

theorem ensureInitialized_ok_no_fault (V : Vendor ε α) (cfg : Config)
    (apps : List α) (x : Option α) (h : (ensureInitialized V cfg apps).result = .ok x) :
    ∀ ev ∈ (ensureInitialized V cfg apps).calls, V.faultOf ev = none := by
  rcases ensureInitialized_cases V cfg apps with
    ⟨a, _, ha, hE⟩ | ⟨e, _, _, hE⟩ | ⟨_, hE⟩
  · simp [hE, Vendor.faultOf, ha]
  · simp [hE] at h
  · simp [hE]

theorem ensureInitialized_error_fault (V : Vendor ε α) (cfg : Config)
    (apps : List α) (e : ε) (h : (ensureInitialized V cfg apps).result = .error e) :
    (ensureInitialized V cfg apps).calls = [Event.mk (.initializeApp cfg) []] ∧
      apps = [] ∧ V.initializeApp cfg [] = .error e := by
  rcases ensureInitialized_cases V cfg apps with
    ⟨a, _, _, hE⟩ | ⟨e1, hnil, he, hE⟩ | ⟨_, hE⟩
  · simp [hE] at h
  · simp [hE] at h
    subst h
    exact ⟨by simp [hE], hnil, he⟩
  · simp [hE] at h

theorem findSome?_append_of_none {β γ : Type} (g : β → Option γ) (xs ys : List β)
    (h : ∀ x ∈ xs, g x = none) : (xs ++ ys).findSome? g = ys.findSome? g := by
  induction xs with
  | nil => rfl
  | cons x xs ih =>
    have hx : g x = none := h x (by simp)
    have hxs : ∀ y ∈ xs, g y = none := fun y hy => h y (by simp [hy])
    simp [List.findSome?, hx, ih hxs]

theorem ensureInitialized_calls_are_constructions (V : Vendor ε α) (cfg : Config)
    (apps : List α) :
    ∀ ev ∈ (ensureInitialized V cfg apps).calls, ev.call = .initializeApp cfg := by
  rcases ensureInitialized_cases V cfg apps with
    ⟨a, _, _, hE⟩ | ⟨e, _, _, hE⟩ | ⟨_, hE⟩ <;> simp [hE]

theorem ensureInitialized_registry_of_length_le_one (V : Vendor ε α) (cfg : Config)
    (apps : List α) (hlen : apps.length ≤ 1) (x : Option α)
    (h : (ensureInitialized V cfg apps).result = .ok x) :
    ∃ a, (ensureInitialized V cfg apps).registry = [a] := by
  rcases ensureInitialized_cases V cfg apps with
    ⟨a, _, _, hE⟩ | ⟨e, _, _, hE⟩ | ⟨hne, hE⟩
  · exact ⟨a, by simp [hE]⟩
  · simp [hE] at h
  · match apps, hne, hlen, hE with
    | [b], _, _, hE => exact ⟨b, by simp [hE]⟩

theorem moduleBody_registry (V : Vendor ε α) (cfg : Config) (apps : List α) :
    (moduleBody V cfg apps).registry = (ensureInitialized V cfg apps).registry := by
  cases hE : (ensureInitialized V cfg apps).result with
  | error e0 => rw [moduleBody_ensure_error V cfg apps e0 hE]
  | ok x =>
    cases hf : V.firestore (ensureInitialized V cfg apps).registry with
    | error e0 => rw [moduleBody_firestore_error V cfg apps x e0 hE hf]
    | ok f =>
      cases hs : V.storage (ensureInitialized V cfg apps).registry with
      | error e0 => rw [moduleBody_storage_error V cfg apps x f e0 hE hf hs]
      | ok s => rw [moduleBody_ok V cfg apps x f s hE hf hs]

theorem moduleBody_ok_inv (V : Vendor ε α) (cfg : Config) (apps : List α)
    (x : Exports α) (hx : (moduleBody V cfg apps).result = .ok x) :
    (∃ y, (ensureInitialized V cfg apps).result = .ok y) ∧
      V.firestore (ensureInitialized V cfg apps).registry = .ok x.firestore ∧
      V.storage (ensureInitialized V cfg apps).registry = .ok x.storage := by
  cases hE : (ensureInitialized V cfg apps).result with
  | error e0 =>
    rw [moduleBody_ensure_error V cfg apps e0 hE] at hx
    simp at hx
  | ok y =>
    cases hf : V.firestore (ensureInitialized V cfg apps).registry with
    | error e0 =>
      rw [moduleBody_firestore_error V cfg apps y e0 hE hf] at hx
      simp at hx
    | ok f =>
      cases hs : V.storage (ensureInitialized V cfg apps).registry with
      | error e0 =>
        rw [moduleBody_storage_error V cfg apps y f e0 hE hf hs] at hx
        simp at hx
      | ok s =>
        rw [moduleBody_ok V cfg apps y f s hE hf hs] at hx
        simp at hx
        subst hx
        exact ⟨⟨y, rfl⟩, rfl, rfl⟩

theorem moduleBody_accessor_events (V : Vendor ε α) (cfg : Config) (apps : List α) :
    ∀ ev ∈ (moduleBody V cfg apps).calls, ev.call = .firestore ∨ ev.call = .storage →
      ev.apps = (ensureInitialized V cfg apps).registry ∧
        ∃ y, (ensureInitialized V cfg apps).result = .ok y := by
  intro ev hev hcall
  have hcons := ensureInitialized_calls_are_constructions V cfg apps
  have hnot : ev ∉ (ensureInitialized V cfg apps).calls := by
    intro hmem
    have := hcons ev hmem
    rcases hcall with h | h <;> simp [h] at this
  cases hE : (ensureInitialized V cfg apps).result with
  | error e0 =>
    rw [moduleBody_ensure_error V cfg apps e0 hE] at hev
    exact absurd hev hnot
  | ok y =>
    cases hf : V.firestore (ensureInitialized V cfg apps).registry with
    | error e0 =>
      rw [moduleBody_firestore_error V cfg apps y e0 hE hf] at hev
      simp at hev
      rcases hev with hev | rfl
      · exact absurd hev hnot
      · exact ⟨rfl, y, rfl⟩
    | ok f =>
      have hev2 : ev ∈ (ensureInitialized V cfg apps).calls ++
          [Event.mk .firestore (ensureInitialized V cfg apps).registry,
            Event.mk .storage (ensureInitialized V cfg apps).registry] := by
        cases hs : V.storage (ensureInitialized V cfg apps).registry with
        | error e0 => rwa [moduleBody_storage_error V cfg apps y f e0 hE hf hs] at hev
        | ok s => rwa [moduleBody_ok V cfg apps y f s hE hf hs] at hev
      simp at hev2
      rcases hev2 with hev2 | rfl | rfl
      · exact absurd hev2 hnot
      · exact ⟨rfl, y, rfl⟩
      · exact ⟨rfl, y, rfl⟩

theorem sdk_firestore_of_find (apps : List App) (a : App)
    (h : apps.find? App.isDefault = some a) :
    sdk.firestore apps = .ok (Handle.mk .firestore a) := by
  simp [sdk, h]

theorem sdk_storage_of_find (apps : List App) (a : App)
    (h : apps.find? App.isDefault = some a) :
    sdk.storage apps = .ok (Handle.mk .storage a) := by
  simp [sdk, h]

theorem sdk_firestore_of_find_none (apps : List App)
    (h : apps.find? App.isDefault = none) :
    sdk.firestore apps = .error "app-compat/no-app" := by
  simp [sdk, h]

theorem sdk_storage_of_find_none (apps : List App)
    (h : apps.find? App.isDefault = none) :
    sdk.storage apps = .error "app-compat/no-app" := by
  simp [sdk, h]

theorem isDefault_iff (a : App) : a.isDefault = true ↔ a.name = "[DEFAULT]" := by
  simp [App.isDefault]

theorem find_isDefault_eq_none_iff (apps : List App) :
    apps.find? App.isDefault = none ↔ ∀ a ∈ apps, a.name ≠ "[DEFAULT]" := by
  simp [List.find?_eq_none, isDefault_iff]

theorem sdk_ensureInitialized_nil (cfg : Config) :
    ensureInitialized sdk cfg [] =
      Outcome.mk [App.mk "[DEFAULT]" cfg] [Event.mk (.initializeApp cfg) []]
        (.ok (some (App.mk "[DEFAULT]" cfg))) :=
  ensureInitialized_nil_ok sdk cfg (App.mk "[DEFAULT]" cfg) rfl

theorem sdk_moduleBody_no_app_iff (cfg : Config) (apps : List App) :
    (moduleBody sdk cfg apps).result = .error "app-compat/no-app" ↔
      apps ≠ [] ∧ ∀ a ∈ apps, a.name ≠ "[DEFAULT]" := by
  cases apps with
  | nil =>
    have hfind : [App.mk "[DEFAULT]" cfg].find? App.isDefault = some (App.mk "[DEFAULT]" cfg) := by
      simp [App.isDefault]
    have hE := sdk_ensureInitialized_nil cfg
    have hres : (ensureInitialized sdk cfg []).result = .ok (some (App.mk "[DEFAULT]" cfg)) := by
      rw [hE]
    have hreg : (ensureInitialized sdk cfg []).registry = [App.mk "[DEFAULT]" cfg] := by
      rw [hE]
    rw [moduleBody_ok sdk cfg [] _ _ _ hres
      (by rw [hreg]; exact sdk_firestore_of_find _ _ hfind)
      (by rw [hreg]; exact sdk_storage_of_find _ _ hfind)]
    simp
  | cons b bs =>
    have hE := ensureInitialized_cons sdk cfg b bs
    have hres : (ensureInitialized sdk cfg (b :: bs)).result = .ok none := by rw [hE]
    have hreg : (ensureInitialized sdk cfg (b :: bs)).registry = b :: bs := by rw [hE]
    cases hfind : (b :: bs).find? App.isDefault with
    | none =>
      rw [moduleBody_firestore_error sdk cfg (b :: bs) none "app-compat/no-app" hres
        (by rw [hreg]; exact sdk_firestore_of_find_none _ hfind)]
      have := (find_isDefault_eq_none_iff (b :: bs)).1 hfind
      simpa using this
    | some a =>
      rw [moduleBody_ok sdk cfg (b :: bs) none _ _ hres
        (by rw [hreg]; exact sdk_firestore_of_find _ _ hfind)
        (by rw [hreg]; exact sdk_storage_of_find _ _ hfind)]
      have hne : ¬ ∀ c ∈ b :: bs, c.name ≠ "[DEFAULT]" := by
        intro hall
        have := (find_isDefault_eq_none_iff (b :: bs)).2 hall
        rw [hfind] at this
        cases this
      simp only [reduceCtorEq, false_iff, not_and]
      intro _
      exact hne

end Lemmas

/-! ## The claims -/

section Claims

variable {ε α : Type}

/-- C1. For a vendor whose construction call returns an instance `a` on the
empty registry, and every `N ≥ 1`: running `N` ensure-initialized steps
(lines 15-18) in sequence from the empty registry completes, performs exactly
one construction call in total, that call being `initializeApp cfg` on the
empty registry, and after each of the `N` steps the registry holds exactly one
instance, namely `a`. -/
theorem loads_construct_exactly_once (V : Vendor ε α) (cfg : Config) (a : α)
    (hok : V.initializeApp cfg [] = .ok a) (N : Nat) (hN : 1 ≤ N) :
    constructions (loads V cfg N []).calls = 1 ∧
      (loads V cfg N []).calls = [Event.mk (.initializeApp cfg) []] ∧
      (loads V cfg N []).result = .ok () ∧
      ∀ k, 1 ≤ k → k ≤ N →
        (loads V cfg k []).registry = [a] ∧ (loads V cfg k []).registry.length = 1 := by
  obtain ⟨n, rfl⟩ : ∃ n, N = n + 1 := ⟨N - 1, by omega⟩
  rw [loads_nil_ok V cfg a hok n]
  refine ⟨by simp [constructions, Event.isConstruction], rfl, rfl, ?_⟩
  intro k hk _
  obtain ⟨m, rfl⟩ : ∃ m, k = m + 1 := ⟨k - 1, by omega⟩
  rw [loads_nil_ok V cfg a hok m]
  exact ⟨rfl, rfl⟩

/-- C1, a concrete run: three loads with the module's `config` against the
vendor `sdk`. -/
theorem loads_construct_exactly_once_witness :
    constructions (loads sdk config 3 []).calls = 1 ∧
      (loads sdk config 3 []).calls = [Event.mk (.initializeApp config) []] ∧
      (loads sdk config 3 []).result = .ok () ∧
      ∀ k, 1 ≤ k → k ≤ 3 →
        (loads sdk config k []).registry = [App.mk "[DEFAULT]" config] ∧
          (loads sdk config k []).registry.length = 1 :=
  loads_construct_exactly_once sdk config (App.mk "[DEFAULT]" config) rfl 3 (by decide)

/-- C2. The ensure-initialized step (lines 15-18), for every registry state.
On the empty registry it performs exactly one vendor call, the construction
call with the given configuration record; when that call returns an instance
the registry afterwards holds exactly that instance, and when it throws the
registry stays empty and the error is the step's result.  On a registry with
one or more instances it performs no vendor call and leaves the registry as it
was.  Every construction call of a module load passes the module's `config`. -/
theorem ensureInitialized_spec (V : Vendor ε α) (cfg : Config) (apps : List α) :
    (apps = [] →
      (ensureInitialized V cfg apps).calls = [Event.mk (.initializeApp cfg) []] ∧
      constructions (ensureInitialized V cfg apps).calls = 1 ∧
      (∀ a, V.initializeApp cfg [] = .ok a →
        (ensureInitialized V cfg apps).registry = [a] ∧
        (ensureInitialized V cfg apps).result = .ok (some a)) ∧
      (∀ e, V.initializeApp cfg [] = .error e →
        (ensureInitialized V cfg apps).registry = [] ∧
        (ensureInitialized V cfg apps).result = .error e)) ∧
    (apps ≠ [] →
      (ensureInitialized V cfg apps).calls = [] ∧
      constructions (ensureInitialized V cfg apps).calls = 0 ∧
      (ensureInitialized V cfg apps).registry = apps ∧
      (ensureInitialized V cfg apps).result = .ok none) ∧
    (∀ ev ∈ (moduleLoad V apps).calls, ev.isConstruction = true →
      ev.call = .initializeApp config) := by
  refine ⟨?_, ?_, ?_⟩
  · rintro rfl
    refine ⟨ensureInitialized_nil_calls V cfg, ?_, ?_, ?_⟩
    · rw [ensureInitialized_nil_calls]; simp [constructions, Event.isConstruction]
    · intro a h; rw [ensureInitialized_nil_ok V cfg a h]; exact ⟨rfl, rfl⟩
    · intro e h; rw [ensureInitialized_nil_error V cfg e h]; exact ⟨rfl, rfl⟩
  · intro h
    rw [ensureInitialized_of_ne_nil V cfg apps h]
    exact ⟨rfl, rfl, rfl, rfl⟩
  · intro ev hev hc
    cases apps with
    | nil =>
      cases h : V.initializeApp config [] with
      | error e =>
        simp [moduleLoad, moduleBody, ensureInitialized_nil_error V config e h,
          Outcome.andThen] at hev
        rw [hev]
      | ok a =>
        simp only [moduleLoad, moduleBody, ensureInitialized_nil_ok V config a h,
          Outcome.andThen, getFirestore, getStorage] at hev
        cases hf : V.firestore [a] with
        | error e =>
          simp [hf] at hev
          rcases hev with rfl | rfl
          · rfl
          · simp [Event.isConstruction] at hc
        | ok f =>
          cases hs : V.storage [a] with
          | error e =>
            simp [hf, hs] at hev
            rcases hev with rfl | rfl | rfl
            · rfl
            · simp [Event.isConstruction] at hc
            · simp [Event.isConstruction] at hc
          | ok s =>
            simp [hf, hs] at hev
            rcases hev with rfl | rfl | rfl
            · rfl
            · simp [Event.isConstruction] at hc
            · simp [Event.isConstruction] at hc
    | cons b bs =>
      simp only [moduleLoad, moduleBody, ensureInitialized_cons,
        Outcome.andThen, getFirestore, getStorage] at hev
      cases hf : V.firestore (b :: bs) with
      | error e =>
        simp [hf] at hev
        subst hev
        simp [Event.isConstruction] at hc
      | ok f =>
        cases hs : V.storage (b :: bs) with
        | error e =>
          simp [hf, hs] at hev
          rcases hev with rfl | rfl <;> simp [Event.isConstruction] at hc
        | ok s =>
          simp [hf, hs] at hev
          rcases hev with rfl | rfl <;> simp [Event.isConstruction] at hc

/-- C3. The ensure-initialized step is idempotent on the registry, for every
registry state `s`: applying it twice leaves the same registry as applying it
once; a second application that follows a completed first one performs no
vendor call (so no construction) and assigns nothing; run as two statements in
sequence, the pair performs exactly the calls of the first.  From the empty
registry, when the construction call returns an instance, the count is 1
after the first application and still 1 after the second. -/
theorem ensureInitialized_idempotent (V : Vendor ε α) (cfg : Config) (s : List α) :
    (ensureInitialized V cfg (ensureInitialized V cfg s).registry).registry =
        (ensureInitialized V cfg s).registry ∧
    (∀ x, (ensureInitialized V cfg s).result = .ok x →
      (ensureInitialized V cfg (ensureInitialized V cfg s).registry).calls = [] ∧
      constructions
        (ensureInitialized V cfg (ensureInitialized V cfg s).registry).calls = 0 ∧
      (ensureInitialized V cfg (ensureInitialized V cfg s).registry).result = .ok none) ∧
    ((ensureInitialized V cfg s).andThen fun _ s1 => ensureInitialized V cfg s1).calls =
        (ensureInitialized V cfg s).calls ∧
    ((ensureInitialized V cfg s).andThen fun _ s1 => ensureInitialized V cfg s1).registry =
        (ensureInitialized V cfg s).registry ∧
    (∀ a, V.initializeApp cfg [] = .ok a →
      (ensureInitialized V cfg []).registry.length = 1 ∧
      (ensureInitialized V cfg (ensureInitialized V cfg []).registry).registry.length = 1) := by
  refine ⟨?_, ?_, ?_, ?_, ?_⟩
  · cases s with
    | cons b bs => simp [ensureInitialized_cons]
    | nil =>
      cases h : V.initializeApp cfg [] with
      | ok a => simp [ensureInitialized_nil_ok V cfg a h, ensureInitialized_cons]
      | error e => simp [ensureInitialized_nil_error V cfg e h]
  · intro x hx
    cases s with
    | cons b bs => simp [ensureInitialized_cons, constructions]
    | nil =>
      cases h : V.initializeApp cfg [] with
      | ok a => simp [ensureInitialized_nil_ok V cfg a h, ensureInitialized_cons, constructions]
      | error e => simp [ensureInitialized_nil_error V cfg e h] at hx
  · cases s with
    | cons b bs => simp [ensureInitialized_cons, Outcome.andThen]
    | nil =>
      cases h : V.initializeApp cfg [] with
      | ok a =>
        simp [ensureInitialized_nil_ok V cfg a h, ensureInitialized_cons, Outcome.andThen]
      | error e => simp [ensureInitialized_nil_error V cfg e h, Outcome.andThen]
  · cases s with
    | cons b bs => simp [ensureInitialized_cons, Outcome.andThen]
    | nil =>
      cases h : V.initializeApp cfg [] with
      | ok a =>
        simp [ensureInitialized_nil_ok V cfg a h, ensureInitialized_cons, Outcome.andThen]
      | error e => simp [ensureInitialized_nil_error V cfg e h, Outcome.andThen]
  · intro a h
    simp [ensureInitialized_nil_ok V cfg a h, ensureInitialized_cons]

/-- C4. In every registry reachable from the empty registry by a finite
sequence of the module's operations (ensure-initialized, the database-handle
accessor, the storage-handle accessor) the number of client instances is 0 or
1; the two accessors leave every registry unchanged; and ensure-initialized
performs no construction and changes nothing whenever an instance exists. -/
theorem registry_count_zero_or_one (V : Vendor ε α) (cfg : Config) (ops : List Op) :
    ((run V cfg [] ops).length = 0 ∨ (run V cfg [] ops).length = 1) ∧
    (∀ apps : List α,
      (getFirestore V apps).registry = apps ∧ (getStorage V apps).registry = apps ∧
      step V cfg apps .getFirestore = apps ∧ step V cfg apps .getStorage = apps) ∧
    (∀ apps : List α, 1 ≤ apps.length →
      constructions (ensureInitialized V cfg apps).calls = 0 ∧
      step V cfg apps .ensureInitialized = apps) := by
  refine ⟨?_, ?_, ?_⟩
  · have := run_nil_length V cfg ops
    omega
  · intro apps
    exact ⟨rfl, rfl, rfl, rfl⟩
  · intro apps h
    have hne : apps ≠ [] := by
      rintro rfl
      simp at h
    simp [step, ensureInitialized_of_ne_nil V cfg apps hne, constructions]

/-- C6. No local validation of the configuration: for any two configuration
records and any registry state, ensure-initialized makes the same number of
construction calls for both, and that number is 1 when the registry is empty
and 0 otherwise, whatever the records and the vendor are.  With the empty
registry and the module's record, whose values are all empty strings, the
construction call is still made, with that record. -/
theorem construction_decision_ignores_config (V : Vendor ε α) (c1 c2 : Config)
    (apps : List α) :
    constructions (ensureInitialized V c1 apps).calls =
        constructions (ensureInitialized V c2 apps).calls ∧
    constructions (ensureInitialized V c1 apps).calls = (if apps.isEmpty then 1 else 0) ∧
    (∀ kv ∈ config, kv.2 = "") ∧
    (ensureInitialized V config []).calls = [Event.mk (.initializeApp config) []] ∧
    constructions (moduleLoad V []).calls = 1 := by
  have key : ∀ c : Config,
      constructions (ensureInitialized V c apps).calls = (if apps.isEmpty then 1 else 0) := by
    intro c
    cases apps with
    | cons b bs => simp [ensureInitialized_cons, constructions]
    | nil =>
      rw [ensureInitialized_nil_calls]
      simp [constructions, Event.isConstruction]
  refine ⟨by rw [key c1, key c2], key c1, ?_, ensureInitialized_nil_calls V config, ?_⟩
  · intro kv hkv
    simp [config] at hkv
    rcases hkv with rfl | rfl | rfl | rfl | rfl | rfl | rfl <;> rfl
  · cases h : V.initializeApp config [] with
    | error e =>
      simp [moduleLoad, moduleBody, ensureInitialized_nil_error V config e h,
        Outcome.andThen, constructions, Event.isConstruction]
    | ok a =>
      simp only [moduleLoad, moduleBody, ensureInitialized_nil_ok V config a h,
        Outcome.andThen, getFirestore, getStorage]
      cases hf : V.firestore [a] with
      | error e => simp [constructions, Event.isConstruction]
      | ok f =>
        cases hs : V.storage [a] with
        | error e => simp [constructions, Event.isConstruction]
        | ok s => simp [constructions, Event.isConstruction]

/-- C8. The module's configuration record has exactly the seven fields
apiKey, authDomain, projectId, storageBucket, messagingSenderId, appId and
measurementId, each once, and the value of every one of them is the empty
string. -/
theorem config_fields_all_empty :
    config.map Prod.fst =
        ["apiKey", "authDomain", "projectId", "storageBucket", "messagingSenderId",
          "appId", "measurementId"] ∧
    config.length = 7 ∧
    (config.map Prod.fst).Nodup ∧
    (∀ kv ∈ config, kv.2 = "") ∧
    config.map Prod.snd = List.replicate 7 "" := by
  refine ⟨rfl, rfl, by decide, ?_, rfl⟩
  intro kv hkv
  simp [config] at hkv
  rcases hkv with rfl | rfl | rfl | rfl | rfl | rfl | rfl <;> rfl

/-- C7. With every vendor call returning `Except`: the module body fails with
error `e` exactly when `e` is the error of the first failing vendor call
among the calls it performed; it completes exactly when none of the calls it
performed fails; and, call by call, it fails with `e` exactly when the
construction call it made throws `e`, or ensure-initialized completed and
`firebase.firestore()` throws `e`, or both of those completed and
`firebase.storage()` throws `e`. -/
theorem moduleBody_fails_iff_vendor_call_fails (V : Vendor ε α) (cfg : Config)
    (apps : List α) :
    (∀ e, (moduleBody V cfg apps).result = .error e ↔
      firstFault V (moduleBody V cfg apps).calls = some e) ∧
    ((∃ x, (moduleBody V cfg apps).result = .ok x) ↔
      ∀ ev ∈ (moduleBody V cfg apps).calls, V.faultOf ev = none) ∧
    (∀ e, (moduleBody V cfg apps).result = .error e ↔
      (apps = [] ∧ V.initializeApp cfg [] = .error e) ∨
      ((∃ x, (ensureInitialized V cfg apps).result = .ok x) ∧
        V.firestore (ensureInitialized V cfg apps).registry = .error e) ∨
      ((∃ x, (ensureInitialized V cfg apps).result = .ok x) ∧
        (∃ f, V.firestore (ensureInitialized V cfg apps).registry = .ok f) ∧
        V.storage (ensureInitialized V cfg apps).registry = .error e)) := by
  cases hE : (ensureInitialized V cfg apps).result with
  | error e0 =>
    obtain ⟨hcalls, hnil, hinit⟩ := ensureInitialized_error_fault V cfg apps e0 hE
    rw [moduleBody_ensure_error V cfg apps e0 hE, hcalls]
    refine ⟨?_, ?_, ?_⟩
    · intro e
      simp [firstFault, Vendor.faultOf, hinit]
    · simp [Vendor.faultOf, hinit]
    · intro e
      simp [hnil, hinit]
  | ok x =>
    have hnone := ensureInitialized_ok_no_fault V cfg apps x hE
    have hne : apps = [] → ∀ e, V.initializeApp cfg [] ≠ .error e := by
      intro hnil e he
      subst hnil
      rw [ensureInitialized_nil_error V cfg e he] at hE
      simp at hE
    cases hf : V.firestore (ensureInitialized V cfg apps).registry with
    | error e0 =>
      rw [moduleBody_firestore_error V cfg apps x e0 hE hf]
      refine ⟨?_, ?_, ?_⟩
      · intro e
        simp [firstFault, findSome?_append_of_none _ _ _ hnone, Vendor.faultOf, hf]
      · simp only [false_iff, reduceCtorEq, exists_false, not_forall]
        exact ⟨Event.mk .firestore (ensureInitialized V cfg apps).registry, by simp,
          by simp [Vendor.faultOf, hf]⟩
      · intro e
        constructor
        · intro h
          simp at h
          subst h
          exact Or.inr (Or.inl ⟨⟨x, rfl⟩, rfl⟩)
        · rintro (⟨hnil, he⟩ | ⟨_, he⟩ | ⟨_, ⟨f, hf2⟩, _⟩)
          · exact absurd he (hne hnil e)
          · simp at he
            simp [he]
          · simp at hf2
    | ok f =>
      cases hs : V.storage (ensureInitialized V cfg apps).registry with
      | error e0 =>
        rw [moduleBody_storage_error V cfg apps x f e0 hE hf hs]
        refine ⟨?_, ?_, ?_⟩
        · intro e
          simp [firstFault, findSome?_append_of_none _ _ _ hnone, Vendor.faultOf, hf, hs]
        · simp only [false_iff, reduceCtorEq, exists_false, not_forall]
          exact ⟨Event.mk .storage (ensureInitialized V cfg apps).registry, by simp,
            by simp [Vendor.faultOf, hs]⟩
        · intro e
          constructor
          · intro h
            simp at h
            subst h
            exact Or.inr (Or.inr ⟨⟨x, rfl⟩, ⟨f, rfl⟩, rfl⟩)
          · rintro (⟨hnil, he⟩ | ⟨_, he⟩ | ⟨_, _, he⟩)
            · exact absurd he (hne hnil e)
            · simp at he
            · simp at he
              simp [he]
      | ok s =>
        rw [moduleBody_ok V cfg apps x f s hE hf hs]
        refine ⟨?_, ?_, ?_⟩
        · intro e
          simp [firstFault, findSome?_append_of_none _ _ _ hnone, Vendor.faultOf, hf, hs]
        · constructor
          · intro _ ev hev
            simp at hev
            rcases hev with hev | rfl | rfl
            · exact hnone ev hev
            · simp [Vendor.faultOf, hf]
            · simp [Vendor.faultOf, hs]
          · intro _
            exact ⟨_, rfl⟩
        · intro e
          constructor
          · intro h
            simp at h
          · rintro (⟨hnil, he⟩ | ⟨_, he⟩ | ⟨_, _, he⟩)
            · exact absurd he (hne hnil e)
            · simp at he
            · simp at he

/-- C7, a concrete run: against `failingSdk`, whose construction call throws,
the module load from the empty registry fails with exactly that error, after
that one call. -/
theorem moduleBody_fails_iff_vendor_call_fails_witness :
    (moduleLoad failingSdk []).result = .error "app/invalid-options" ∧
      (moduleLoad failingSdk []).calls = [Event.mk (.initializeApp config) []] :=
  ⟨((moduleBody_fails_iff_vendor_call_fails failingSdk config []).1
      "app/invalid-options").2 rfl, rfl⟩

/-- C9, as amended.  For every vendor and every registry at load time: when
the guarded construction step (lines 15-18) completes without a vendor fault,
the registry it leaves holds at least one instance, and every
`firebase.firestore()` or `firebase.storage()` call that the module body
performs is made at exactly that registry, which is not empty.  With the
SDK's resolution of the default instance (`sdk`), the accessors' no-instance
failure `app-compat/no-app` is what a module load ends in exactly when the
registry at load time is non-empty and holds no instance named `[DEFAULT]`;
so it is unreachable from a registry that is empty or holds the default
instance. -/
theorem accessors_reached_with_nonempty_registry (V : Vendor ε α) (cfg : Config)
    (apps : List α) (x : Option α)
    (h : (ensureInitialized V cfg apps).result = .ok x) (sdkApps : List App) :
    1 ≤ (ensureInitialized V cfg apps).registry.length ∧
    (∀ ev ∈ (moduleBody V cfg apps).calls, ev.call = .firestore ∨ ev.call = .storage →
      ev.apps = (ensureInitialized V cfg apps).registry ∧ ev.apps ≠ []) ∧
    ((moduleBody sdk cfg sdkApps).result = .error "app-compat/no-app" ↔
      sdkApps ≠ [] ∧ ∀ a ∈ sdkApps, a.name ≠ "[DEFAULT]") ∧
    (sdkApps = [] ∨ (∃ a ∈ sdkApps, a.name = "[DEFAULT]") →
      (moduleBody sdk cfg sdkApps).result ≠ .error "app-compat/no-app" ∧
      sdk.firestore (ensureInitialized sdk cfg sdkApps).registry ≠
        .error "app-compat/no-app" ∧
      sdk.storage (ensureInitialized sdk cfg sdkApps).registry ≠
        .error "app-compat/no-app") := by
  have hne := ensureInitialized_ok_registry_ne_nil V cfg apps x h
  refine ⟨?_, ?_, sdk_moduleBody_no_app_iff cfg sdkApps, ?_⟩
  · cases hr : (ensureInitialized V cfg apps).registry with
    | nil => exact absurd hr hne
    | cons b bs => simp
  · intro ev hev hcall
    obtain ⟨hat, _⟩ := moduleBody_accessor_events V cfg apps ev hev hcall
    exact ⟨hat, by rw [hat]; exact hne⟩
  · intro hgood
    have hfind : ∃ a, (ensureInitialized sdk cfg sdkApps).registry.find? App.isDefault
        = some a := by
      rcases hgood with rfl | ⟨a, ha, hname⟩
      · exact ⟨App.mk "[DEFAULT]" cfg, by simp [sdk_ensureInitialized_nil, App.isDefault]⟩
      · have hnil : sdkApps ≠ [] := by
          rintro rfl
          simp at ha
        rw [ensureInitialized_of_ne_nil sdk cfg sdkApps hnil]
        cases hf : sdkApps.find? App.isDefault with
        | some b => exact ⟨b, rfl⟩
        | none =>
          exact absurd hname ((find_isDefault_eq_none_iff sdkApps).1 hf a ha)
    obtain ⟨a, ha⟩ := hfind
    refine ⟨?_, ?_, ?_⟩
    · intro hfail
      obtain ⟨hnil, hall⟩ := (sdk_moduleBody_no_app_iff cfg sdkApps).1 hfail
      rcases hgood with rfl | ⟨b, hb, hname⟩
      · exact hnil rfl
      · exact hall b hb hname
    · rw [sdk_firestore_of_find _ a ha]
      simp
    · rw [sdk_storage_of_find _ a ha]
      simp

/-- C9, a concrete run: the module load against `sdk` from the empty registry
(the guarded step constructs the default instance), set beside a registry that
holds the default instance and another one. -/
theorem accessors_reached_with_nonempty_registry_witness :
    1 ≤ (ensureInitialized sdk config []).registry.length ∧
    (∀ ev ∈ (moduleBody sdk config []).calls, ev.call = .firestore ∨ ev.call = .storage →
      ev.apps = (ensureInitialized sdk config []).registry ∧ ev.apps ≠ []) ∧
    ((moduleBody sdk config [secondaryApp, defaultApp]).result =
        .error "app-compat/no-app" ↔
      [secondaryApp, defaultApp] ≠ [] ∧
        ∀ a ∈ [secondaryApp, defaultApp], a.name ≠ "[DEFAULT]") ∧
    ([secondaryApp, defaultApp] = [] ∨
        (∃ a ∈ [secondaryApp, defaultApp], a.name = "[DEFAULT]") →
      (moduleBody sdk config [secondaryApp, defaultApp]).result ≠
        .error "app-compat/no-app" ∧
      sdk.firestore (ensureInitialized sdk config [secondaryApp, defaultApp]).registry ≠
        .error "app-compat/no-app" ∧
      sdk.storage (ensureInitialized sdk config [secondaryApp, defaultApp]).registry ≠
        .error "app-compat/no-app") :=
  accessors_reached_with_nonempty_registry sdk config [] (some defaultApp) rfl
    [secondaryApp, defaultApp]

/-- C9 as stated fails on a registry that holds only an instance registered
under another name: the guarded step completes without a vendor fault and
without any call, the registry is not empty when line 21 is evaluated, and yet
`firebase.firestore()` throws the no-instance error there and the module load
fails with it. -/
theorem accessors_no_app_counterexample :
    (ensureInitialized sdk config [secondaryApp]).result = .ok none ∧
    (ensureInitialized sdk config [secondaryApp]).calls = [] ∧
    (ensureInitialized sdk config [secondaryApp]).registry = [secondaryApp] ∧
    1 ≤ (ensureInitialized sdk config [secondaryApp]).registry.length ∧
    sdk.firestore (ensureInitialized sdk config [secondaryApp]).registry =
      .error "app-compat/no-app" ∧
    sdk.storage (ensureInitialized sdk config [secondaryApp]).registry =
      .error "app-compat/no-app" ∧
    (moduleLoad sdk [secondaryApp]).calls = [Event.mk .firestore [secondaryApp]] ∧
    (moduleLoad sdk [secondaryApp]).result = .error "app-compat/no-app" := by
  have hfind : [secondaryApp].find? App.isDefault = none := by
    simp [secondaryApp, App.isDefault]
  have hE := ensureInitialized_cons sdk config secondaryApp []
  have hres : (ensureInitialized sdk config [secondaryApp]).result = .ok none := by rw [hE]
  have hreg : (ensureInitialized sdk config [secondaryApp]).registry = [secondaryApp] := by
    rw [hE]
  have hf : sdk.firestore (ensureInitialized sdk config [secondaryApp]).registry =
      .error "app-compat/no-app" := by
    rw [hreg]; exact sdk_firestore_of_find_none _ hfind
  have hs : sdk.storage (ensureInitialized sdk config [secondaryApp]).registry =
      .error "app-compat/no-app" := by
    rw [hreg]; exact sdk_storage_of_find_none _ hfind
  refine ⟨hres, by rw [hE], hreg, by rw [hreg]; simp, hf, hs, ?_, ?_⟩
  · rw [moduleLoad, moduleBody_firestore_error sdk config [secondaryApp] none _ hres hf, hE]
    simp
  · rw [moduleLoad, moduleBody_firestore_error sdk config [secondaryApp] none _ hres hf]

/-- C5, as amended.  For every configuration record and every registry at
load time: when the module load completes, the exported database handle is
the handle `firebase.firestore()` returned and the exported storage handle is
the handle `firebase.storage()` returned, both at the registry the guarded
step left; each is a handle of its own service, bound to one and the same
registered instance, the registry's default instance; and that instance is
the single instance in the registry whenever the registry held at most one
instance at load time. -/
theorem exports_bound_to_the_default_instance (cfg : Config) (apps : List App)
    (x : Exports App) (hx : (moduleBody sdk cfg apps).result = .ok x) :
    sdk.firestore (moduleBody sdk cfg apps).registry = .ok x.firestore ∧
    sdk.storage (moduleBody sdk cfg apps).registry = .ok x.storage ∧
    x.firestore.app = x.storage.app ∧
    ∃ a, a ∈ (moduleBody sdk cfg apps).registry ∧ a.name = "[DEFAULT]" ∧
      (moduleBody sdk cfg apps).registry.find? App.isDefault = some a ∧
      x.firestore = Handle.mk .firestore a ∧ x.storage = Handle.mk .storage a ∧
      (apps.length ≤ 1 → (moduleBody sdk cfg apps).registry = [a]) ∧
      (apps = [] → a = App.mk "[DEFAULT]" cfg) := by
  obtain ⟨⟨y, hy⟩, hf, hs⟩ := moduleBody_ok_inv sdk cfg apps x hx
  rw [moduleBody_registry]
  cases hfind : (ensureInitialized sdk cfg apps).registry.find? App.isDefault with
  | none =>
    rw [sdk_firestore_of_find_none _ hfind] at hf
    cases hf
  | some a =>
    have hf2 := sdk_firestore_of_find _ a hfind
    have hs2 := sdk_storage_of_find _ a hfind
    have hxf : x.firestore = Handle.mk .firestore a := by
      rw [hf] at hf2
      exact Except.ok.inj hf2
    have hxs : x.storage = Handle.mk .storage a := by
      rw [hs] at hs2
      exact Except.ok.inj hs2
    have hmem : a ∈ (ensureInitialized sdk cfg apps).registry :=
      List.mem_of_find?_eq_some hfind
    refine ⟨hf, hs, by rw [hxf, hxs], a, hmem,
      (isDefault_iff a).1 (List.find?_some hfind), rfl, hxf, hxs, ?_, ?_⟩
    · intro hlen
      obtain ⟨b, hb⟩ := ensureInitialized_registry_of_length_le_one sdk cfg apps hlen y hy
      rw [hb] at hmem ⊢
      simp at hmem
      rw [hmem]
    · rintro rfl
      rw [sdk_ensureInitialized_nil] at hmem
      simpa using hmem

/-- C5, a concrete run: the module load against `sdk` from the empty
registry. -/
theorem exports_bound_to_the_default_instance_witness :
    sdk.firestore (moduleBody sdk config []).registry =
      .ok (Exports.mk (Handle.mk .firestore defaultApp)
        (Handle.mk .storage defaultApp)).firestore ∧
    sdk.storage (moduleBody sdk config []).registry =
      .ok (Exports.mk (Handle.mk .firestore defaultApp)
        (Handle.mk .storage defaultApp)).storage ∧
    (Exports.mk (Handle.mk .firestore defaultApp)
        (Handle.mk .storage defaultApp)).firestore.app =
      (Exports.mk (Handle.mk .firestore defaultApp)
        (Handle.mk .storage defaultApp)).storage.app ∧
    ∃ a, a ∈ (moduleBody sdk config []).registry ∧ a.name = "[DEFAULT]" ∧
      (moduleBody sdk config []).registry.find? App.isDefault = some a ∧
      (Exports.mk (Handle.mk .firestore defaultApp)
        (Handle.mk .storage defaultApp)).firestore = Handle.mk .firestore a ∧
      (Exports.mk (Handle.mk .firestore defaultApp)
        (Handle.mk .storage defaultApp)).storage = Handle.mk .storage a ∧
      (([] : List App).length ≤ 1 → (moduleBody sdk config []).registry = [a]) ∧
      (([] : List App) = [] → a = App.mk "[DEFAULT]" config) :=
  exports_bound_to_the_default_instance config []
    (Exports.mk (Handle.mk .firestore defaultApp) (Handle.mk .storage defaultApp))
    (by simp [moduleBody, ensureInitialized, sdk, Outcome.andThen, getFirestore, getStorage,
      App.isDefault, defaultApp])

/-- C5 as stated fails on a registry that already holds two instances: the
module load completes, the guard skips construction, both exported handles
are bound to the same instance (the default one), but the registry still
holds both instances, so that instance is not the single instance in the
registry. -/
theorem handles_single_instance_counterexample :
    (moduleLoad sdk [defaultApp, secondaryApp]).result =
      .ok (Exports.mk (Handle.mk .firestore defaultApp) (Handle.mk .storage defaultApp)) ∧
    (moduleLoad sdk [defaultApp, secondaryApp]).calls =
      [Event.mk .firestore [defaultApp, secondaryApp],
        Event.mk .storage [defaultApp, secondaryApp]] ∧
    (moduleLoad sdk [defaultApp, secondaryApp]).registry = [defaultApp, secondaryApp] ∧
    ¬ ∃ a, (moduleLoad sdk [defaultApp, secondaryApp]).registry = [a] := by
  have hfind : [defaultApp, secondaryApp].find? App.isDefault = some defaultApp := by
    simp [defaultApp, App.isDefault]
  have hE := ensureInitialized_cons sdk config defaultApp [secondaryApp]
  have hres : (ensureInitialized sdk config [defaultApp, secondaryApp]).result = .ok none := by
    rw [hE]
  have hreg : (ensureInitialized sdk config [defaultApp, secondaryApp]).registry =
      [defaultApp, secondaryApp] := by
    rw [hE]
  have hbody := moduleBody_ok sdk config [defaultApp, secondaryApp] none _ _ hres
    (by rw [hreg]; exact sdk_firestore_of_find _ _ hfind)
    (by rw [hreg]; exact sdk_storage_of_find _ _ hfind)
  rw [moduleLoad, hbody, hE]
  refine ⟨rfl, rfl, rfl, ?_⟩
  rintro ⟨a, ha⟩
  have hlen := congrArg List.length ha
  simp at hlen

end Claims

end FirebaseConfig
